import Mathlib

/-!
Shallow embedding of the graph-data builder and renderer lifecycle of
`GraphRenderer.ts` (second revision, the one imported by `main.ts`).
Documents, tags and selections are modelled as association lists / lists
whose order mirrors JavaScript object / `Map` / `Set` insertion-iteration
order.  All definitions are translated directly from the source.
-/

namespace GigatagGraph

/-- `FileSummary` from GraphRenderer.ts: `{file, content, links}`. -/
structure FileSummary where
  file : String
  content : String
  links : List String
deriving DecidableEq, Repr

/-- `GraphTag` from GraphRenderer.ts: `{name, color, files : Set<string>}`;
the member set is modelled as a list in its iteration order. -/
structure GraphTag where
  name : String
  color : String
  files : List String
deriving DecidableEq, Repr

/-- `GraphSettings` from GraphRenderer.ts.  Numeric sliders are modelled as
rationals; only `showTagConnections` affects the graph-data build. -/
structure GraphSettings where
  gravity : Rat
  repelling : Rat
  linkDistance : Rat
  charge : Rat
  centerStrength : Rat
  showTagConnections : Bool
deriving DecidableEq, Repr

/-- The default settings literal of the class. -/
def defaultSettings : GraphSettings :=
  { gravity := 1/10, repelling := 100, linkDistance := 100,
    charge := -30, centerStrength := 1/10, showTagConnections := false }

/-- `GraphNode` (static fields; simulation-owned coordinates are irrelevant
to the data build). -/
structure GraphNode where
  id : String
  name : String
  path : String
  radius : Nat
  isSelected : Bool
  color : String
deriving DecidableEq, Repr

/-- `GraphLink`: `{source, target, type?, tag?}`. -/
structure GraphLink where
  source : GraphNode
  target : GraphNode
  type : String
  tag : Option String
deriving DecidableEq, Repr

/-- The corpus `allData : Record<string, FileSummary>` as an association
list from path to summary, in object-key iteration order. -/
abbrev Corpus := List (String × FileSummary)

/-- The tag index `tags : Map<string, GraphTag>` as an association list in
map iteration order. -/
abbrev TagIndex := List (String × GraphTag)

/-- `this.allData[path]` — object-key lookup. -/
def lookupData (allData : Corpus) (path : String) : Option FileSummary :=
  (allData.find? (fun e => e.1 == path)).map (fun e => e.2)

/-- `this.tags.get(name)` — map lookup. -/
def lookupTag (tagsIdx : TagIndex) (name : String) : Option GraphTag :=
  (tagsIdx.find? (fun e => e.1 == name)).map (fun e => e.2)

/-- JavaScript `a || b` on object-valued expressions (objects are truthy). -/
def orOpt (a b : Option GraphNode) : Option GraphNode :=
  match a with
  | some n => some n
  | none => b

/-- `s.replace(/\.md$/, '')` — strip one trailing `.md`.  Stated on the
character list so the kernel can evaluate it: the string ends in the
three characters `.md` exactly when the first three of its reversed
characters are `d`, `m`, `.`. -/
def stripMd (s : String) : String :=
  if s.data.reverse.take 3 = ['d', 'm', '.'] then
    String.mk (s.data.take (s.data.length - 3))
  else s

/-- First pass of `generateGraphData`: the set of tag names whose member
set contains `path`, in tag-index iteration order
(`this.tags.forEach((tag, tagName) => if (tag.files.has(path)) ...)`). -/
def tagsOfPath (tagsIdx : TagIndex) (path : String) : List String :=
  (tagsIdx.filter (fun e => e.2.files.contains path)).map (fun e => e.1)

/-- The selected paths that have a corpus entry, in selection iteration
order (each loop of `generateGraphData` skips paths with no summary). -/
def includedPaths (allData : Corpus) (sel : List String) : List String :=
  sel.filter (fun p => (lookupData allData p).isSome)

/-- `tagGroups.get(t)?.length || 0`: the number of selected, present
documents that belong to tag `t` (the first pass pushes each such path
onto `tagGroups.get(tagName)`). -/
def tagMemberCount (allData : Corpus) (sel : List String) (tagsIdx : TagIndex)
    (t : String) : Nat :=
  match lookupTag tagsIdx t with
  | none => 0
  | some tg => ((includedPaths allData sel).filter (fun p => tg.files.contains p)).length

/-- `untaggedFiles`: selected, present documents with no tag membership,
in selection iteration order. -/
def untaggedFilesOf (allData : Corpus) (sel : List String) (tagsIdx : TagIndex) :
    List String :=
  (includedPaths allData sel).filter (fun p => (tagsOfPath tagsIdx p).isEmpty)

/-- `groups.get(groupId).push(file)` with `groups : Map<number, string[]>`. -/
def addToGroup : List (Nat × List String) → Nat → String → List (Nat × List String)
  | [], g, f => [(g, [f])]
  | (g0, fs) :: rest, g, f =>
    if g0 = g then (g0, fs ++ [f]) :: rest else (g0, fs) :: addToGroup rest g f

/-- `createUntaggedGroups`: bucket the untagged files three at a time;
file `i` goes to group `i / 3 + 1`. -/
def createUntaggedGroups (untaggedFiles : List String) : List (Nat × List String) :=
  untaggedFiles.enum.foldl (fun groups e => addToGroup groups (e.1 / 3 + 1) e.2) []

/-- The untagged branch of node coloring: scan all groups, remembering the
last group containing `path` (`untaggedGroups.forEach` overwrites
`nodeColor` on every match); fall back to group 1 when none matches. -/
def untaggedColor (groups : List (Nat × List String)) (path : String) : String :=
  match groups.foldl (fun acc g => if g.2.contains path then some g.1 else acc) none with
  | some g => "untagged-group-" ++ toString g
  | none => "untagged-group-1"

/-- One step of a stable insertion sort, descending by `key`: the new
element goes after every element whose key is at least as large. -/
def insertDesc (key : String → Nat) (x : String) : List String → List String
  | [] => [x]
  | y :: ys => if key x ≤ key y then y :: insertDesc key x ys else x :: y :: ys

/-- `Array.prototype.sort((a, b) => bCount - aCount)`: a stable sort in
descending key order (JavaScript sort is stable). -/
def sortDesc (key : String → Nat) (xs : List String) : List String :=
  xs.foldl (fun acc x => insertDesc key x acc) []

/-- The head of a stable descending sort, computed directly: fold over
the elements keeping the first element attaining the running maximum. -/
def pickMax (key : String → Nat) (o : Option String) (x : String) : Option String :=
  match o with
  | none => some x
  | some y => if key x ≤ key y then some y else some x

/-- The tagged branch of node coloring: sort the document's tags by
selected-member count (descending, stable) and use the color of the
first; the source's fallbacks use `untagged-group-1`. -/
def taggedColor (tagsIdx : TagIndex) (key : String → Nat) (ts : List String) : String :=
  match sortDesc key ts with
  | [] => "untagged-group-1"
  | t0 :: _ =>
    match lookupTag tagsIdx t0 with
    | some tg => tg.color
    | none => "untagged-group-1"

/-- `nodeColor` for one selected, present document. -/
def nodeColorFor (allData : Corpus) (sel : List String) (tagsIdx : TagIndex)
    (path : String) : String :=
  if (tagsOfPath tagsIdx path).isEmpty then
    untaggedColor (createUntaggedGroups (untaggedFilesOf allData sel tagsIdx)) path
  else
    taggedColor tagsIdx (tagMemberCount allData sel tagsIdx) (tagsOfPath tagsIdx path)

/-- The node literal pushed for each selected, present document. -/
def mkNode (fs : FileSummary) (path color : String) : GraphNode :=
  { id := fs.file, name := fs.file, path := path, radius := 12,
    isSelected := true, color := color }

/-- The node (if any) created for a selection entry `p`. -/
def nodeEntry (allData : Corpus) (sel : List String) (tagsIdx : TagIndex)
    (p : String) : Option GraphNode :=
  match lookupData allData p with
  | none => none
  | some fs => some (mkNode fs p (nodeColorFor allData sel tagsIdx p))

/-- The `nodes` array after the node-creation pass. -/
def nodesOf (allData : Corpus) (sel : List String) (tagsIdx : TagIndex) :
    List GraphNode :=
  sel.filterMap (nodeEntry allData sel tagsIdx)

/-- `nodeMap`, with both `fileSummary.file` and `path` bound to the node;
later bindings shadow earlier ones, as `Map.set` does. -/
def nodeMapOf (allData : Corpus) (sel : List String) (tagsIdx : TagIndex) :
    List (String × GraphNode) :=
  sel.foldl (fun m p =>
    match nodeEntry allData sel tagsIdx p with
    | none => m
    | some n => m ++ [(n.id, n), (n.path, n)]) []

/-- `Map.get`: the most recently written binding for a key. -/
def mapGet (m : List (String × GraphNode)) (k : String) : Option GraphNode :=
  (m.reverse.find? (fun e => e.1 == k)).map (fun e => e.2)

/-- The `linkExists` duplicate check: some existing link joins the same
two node ids in either direction. -/
def linkExists (ls : List GraphLink) (s t : GraphNode) : Bool :=
  ls.any (fun l => (l.source.id == s.id && l.target.id == t.id) ||
                   (l.source.id == t.id && l.target.id == s.id))

/-- The common push site: guard against self-links by id, then against an
existing link on the same unordered id pair, then push. -/
def tryAddLink (ls : List GraphLink) (s t : GraphNode) (ty : String)
    (tg : Option String) : List GraphLink :=
  if s.id ≠ t.id then
    if linkExists ls s t then ls
    else ls ++ [{ source := s, target := t, type := ty, tag := tg }]
  else ls

/-- Resolve a normalized link over the corpus entries: first entry whose
basename, path, or extension-stripped path equals it. -/
def findTarget (allData : Corpus) (normalizedLink : String) :
    Option (String × FileSummary) :=
  allData.find? (fun e => e.2.file == normalizedLink || e.1 == normalizedLink ||
                          stripMd e.1 == normalizedLink)

/-- Processing of one outbound link of a selected source document. -/
def processWikiLink (allData : Corpus) (sel : List String)
    (nodeMap : List (String × GraphNode)) (src : GraphNode)
    (ls : List GraphLink) (link : String) : List GraphLink :=
  match findTarget allData (stripMd link) with
  | none => ls
  | some (tp, tf) =>
    if sel.contains tp then
      match orOpt (mapGet nodeMap tf.file) (mapGet nodeMap tp) with
      | none => ls
      | some tn => tryAddLink ls src tn "wiki-link" none
    else ls

/-- Processing of one member path of one shared tag of the source. -/
def processTagTarget (sel : List String) (nodeMap : List (String × GraphNode))
    (path : String) (src : GraphNode) (tg : String)
    (ls : List GraphLink) (targetPath : String) : List GraphLink :=
  if targetPath ≠ path ∧ sel.contains targetPath then
    match mapGet nodeMap targetPath with
    | none => ls
    | some tn => tryAddLink ls src tn "tag-link" (some tg)
  else ls

/-- Processing of one tag of a selected source document. -/
def processTag (tagsIdx : TagIndex) (sel : List String)
    (nodeMap : List (String × GraphNode)) (path : String) (src : GraphNode)
    (ls : List GraphLink) (tg : String) : List GraphLink :=
  match lookupTag tagsIdx tg with
  | none => ls
  | some td => td.files.foldl (processTagTarget sel nodeMap path src tg) ls

/-- Processing of one selection entry in the link pass: its wiki links,
then (when tag connections are on) its shared-tag links. -/
def processPath (allData : Corpus) (sel : List String) (tagsIdx : TagIndex)
    (st : GraphSettings) (nodeMap : List (String × GraphNode))
    (ls : List GraphLink) (path : String) : List GraphLink :=
  match lookupData allData path with
  | none => ls
  | some fs =>
    match orOpt (mapGet nodeMap fs.file) (mapGet nodeMap path) with
    | none => ls
    | some src =>
      let ls1 := fs.links.foldl (processWikiLink allData sel nodeMap src) ls
      if st.showTagConnections then
        (tagsOfPath tagsIdx path).foldl (processTag tagsIdx sel nodeMap path src) ls1
      else ls1

/-- The `links` array after the link pass. -/
def linksOf (allData : Corpus) (sel : List String) (tagsIdx : TagIndex)
    (st : GraphSettings) : List GraphLink :=
  sel.foldl (processPath allData sel tagsIdx st (nodeMapOf allData sel tagsIdx)) []

/-- `generateGraphData` (second revision): clears the arrays, returns both
empty when nothing is selected, otherwise runs the node and link passes. -/
def generateGraphData (allData : Corpus) (sel : List String) (tagsIdx : TagIndex)
    (st : GraphSettings) : List GraphNode × List GraphLink :=
  if sel.isEmpty then ([], [])
  else (nodesOf allData sel tagsIdx, linksOf allData sel tagsIdx st)

/-! ### Renderer lifecycle (simulation, resize observer, disposal)

State-machine embedding of the handle lifecycle of the second revision:
`initializeGraph` / `initializeSimulation` (simulation created with
`alpha(0.5).restart()`), `setupResizeObserver` (a `ResizeObserver` is
created in a local variable, observes the container, and its reference is
dropped), `updateSimulation`, `restartSimulation`, and `destroy`
(`simulation.stop()`, remove SVG and tooltip; the field `this.simulation`
is not cleared and the observer is not disconnected). -/

/-- The d3 simulation as seen by the claims: whether its internal timer is
running (tick callbacks fire while it is) and the current alpha. -/
structure SimState where
  running : Bool
  alpha : Rat
deriving DecidableEq, Repr

/-- `simulation.stop()`. -/
def simStop (s : SimState) : SimState := { s with running := false }

/-- `simulation.alpha(a).restart()`. -/
def simRestart (a : Rat) (s : SimState) : SimState := { s with running := true, alpha := a }

/-- The fields of the renderer handle that the lifecycle claims read. -/
structure RendererState where
  simulation : Option SimState
  resizeObserverActive : Bool
  svgAttached : Bool
  tooltipAttached : Bool
deriving DecidableEq, Repr

/-- `setupResizeObserver`: creates a `ResizeObserver` in a local variable
and calls `observe(this.container)`; no field of the class stores it. -/
def setupResizeObserver (r : RendererState) : RendererState :=
  { r with resizeObserverActive := true }

/-- `initializeSimulation`: builds the force simulation, sets
`alpha(0.5)` and calls `restart()`. -/
def initSim (r : RendererState) : RendererState :=
  { r with simulation := some { running := true, alpha := 1/2 } }

/-- The handle right after the constructor ran `initializeGraph`
(tooltip and SVG created, simulation started, resize observer attached). -/
def initRenderer : RendererState :=
  setupResizeObserver (initSim
    { simulation := none, resizeObserverActive := false,
      svgAttached := true, tooltipAttached := true })

/-- `destroy`: stops the simulation if present and removes the SVG and
tooltip.  It neither clears `this.simulation` nor disconnects the resize
observer (whose reference was dropped by `setupResizeObserver`). -/
def destroy (r : RendererState) : RendererState :=
  { r with simulation := r.simulation.map simStop,
           svgAttached := false, tooltipAttached := false }

/-- `restartSimulation`: `if (this.simulation) this.simulation.alpha(0.5).restart()`. -/
def restartSimulation (r : RendererState) : RendererState :=
  match r.simulation with
  | none => r
  | some s => { r with simulation := some (simRestart (1/2) s) }

/-- `updateSimulation`: `if (!this.simulation) return;` then reconfigures
every force and ends with `.alpha(0.3).restart()`. -/
def updateSimulation (r : RendererState) : RendererState :=
  match r.simulation with
  | none => r
  | some s => { r with simulation := some (simRestart (3/10) s) }

/-- The body of the `ResizeObserver` callback: resize the SVG, then
`if (this.simulation) { ...forceCenter...; this.simulation.alpha(0.3).restart() }`. -/
def resizeCallback (r : RendererState) : RendererState :=
  match r.simulation with
  | none => r
  | some s => { r with simulation := some (simRestart (3/10) s) }

/-- A container-resize event: the callback fires iff the observer is
still observing. -/
def onContainerResize (r : RendererState) : RendererState :=
  if r.resizeObserverActive then resizeCallback r else r

/-- Whether tick callbacks can still fire on this handle. -/
def ticksActive (r : RendererState) : Bool :=
  match r.simulation with
  | none => false
  | some s => s.running

/-! ### Attempts: a flattened view of the link pass

Every push site of the link pass is `tryAddLink` applied to a source
node, a target node, a kind string and an optional tag, and none of these
data depend on the accumulated `links` array.  The link pass is therefore
the sequential application of a list of such attempts, which the
equivalence theorems below establish.  This view underlies the dedup,
endpoint and toggle theorems. -/

/-- One guarded push: the data handed to `tryAddLink`. -/
structure Attempt where
  src : GraphNode
  tgt : GraphNode
  ty : String
  tg : Option String
deriving DecidableEq, Repr

/-- The link an attempt would push. -/
def mkLink (a : Attempt) : GraphLink :=
  { source := a.src, target := a.tgt, type := a.ty, tag := a.tg }

/-- Run one attempt against the accumulated links. -/
def applyAttempt (ls : List GraphLink) (a : Attempt) : List GraphLink :=
  tryAddLink ls a.src a.tgt a.ty a.tg

/-- Run a list of attempts in order. -/
def applyAttempts (ls : List GraphLink) (atts : List Attempt) : List GraphLink :=
  atts.foldl applyAttempt ls

/-- The attempt generated by one outbound link of a source node, if any. -/
def wikiAttempt (allData : Corpus) (sel : List String)
    (nodeMap : List (String × GraphNode)) (src : GraphNode) (link : String) :
    Option Attempt :=
  match findTarget allData (stripMd link) with
  | none => none
  | some (tp, tf) =>
    if sel.contains tp then
      match orOpt (mapGet nodeMap tf.file) (mapGet nodeMap tp) with
      | none => none
      | some tn => some { src := src, tgt := tn, ty := "wiki-link", tg := none }
    else none

/-- The attempt generated by one member path of one shared tag, if any. -/
def tagTargetAttempt (sel : List String) (nodeMap : List (String × GraphNode))
    (path : String) (src : GraphNode) (tg : String) (targetPath : String) :
    Option Attempt :=
  if targetPath ≠ path ∧ sel.contains targetPath then
    match mapGet nodeMap targetPath with
    | none => none
    | some tn => some { src := src, tgt := tn, ty := "tag-link", tg := some tg }
  else none

/-- All attempts generated by one tag of the source document. -/
def tagAttemptsOf (tagsIdx : TagIndex) (sel : List String)
    (nodeMap : List (String × GraphNode)) (path : String) (src : GraphNode)
    (tg : String) : List Attempt :=
  match lookupTag tagsIdx tg with
  | none => []
  | some td => td.files.filterMap (tagTargetAttempt sel nodeMap path src tg)

/-- All wiki attempts of one selection entry. -/
def pathWikiAttempts (allData : Corpus) (sel : List String)
    (nodeMap : List (String × GraphNode)) (path : String) : List Attempt :=
  match lookupData allData path with
  | none => []
  | some fs =>
    match orOpt (mapGet nodeMap fs.file) (mapGet nodeMap path) with
    | none => []
    | some src => fs.links.filterMap (wikiAttempt allData sel nodeMap src)

/-- All shared-tag attempts of one selection entry. -/
def pathTagAttempts (allData : Corpus) (tagsIdx : TagIndex) (sel : List String)
    (nodeMap : List (String × GraphNode)) (path : String) : List Attempt :=
  match lookupData allData path with
  | none => []
  | some fs =>
    match orOpt (mapGet nodeMap fs.file) (mapGet nodeMap path) with
    | none => []
    | some src =>
      (tagsOfPath tagsIdx path).flatMap (tagAttemptsOf tagsIdx sel nodeMap path src)

/-- The full agenda of the link pass for a given tag-connection flag. -/
def agendaOf (allData : Corpus) (sel : List String) (tagsIdx : TagIndex)
    (nodeMap : List (String × GraphNode)) (flag : Bool) : List Attempt :=
  sel.flatMap (fun p =>
    pathWikiAttempts allData sel nodeMap p ++
      (if flag then pathTagAttempts allData tagsIdx sel nodeMap p else []))

/-- `l` joins the unordered id pair `{x, y}` (in either direction). -/
def sameIds (l : GraphLink) (x y : String) : Prop :=
  (l.source.id = x ∧ l.target.id = y) ∨ (l.source.id = y ∧ l.target.id = x)

instance (l : GraphLink) (x y : String) : Decidable (sameIds l x y) := by
  unfold sameIds; infer_instance

/-- Some link of `ls` joins the unordered id pair `{x, y}`. -/
def PairIn (ls : List GraphLink) (x y : String) : Prop :=
  ∃ l ∈ ls, sameIds l x y

instance (ls : List GraphLink) (x y : String) : Decidable (PairIn ls x y) := by
  unfold PairIn; infer_instance

/-! ### Concrete test inputs used by counterexamples and witnesses -/

/-- A one-document corpus whose path is `A.md` and basename `A`. -/
def corpusC1 : Corpus := [("A.md", { file := "A", content := "", links := [] })]

/-- A corpus where `A` has no outbound links and `B` links to `A`. -/
def corpusC5 : Corpus :=
  [("A.md", { file := "A", content := "", links := [] }),
   ("B.md", { file := "B", content := "", links := ["A"] })]

/-- A tag index with the single tag `x` covering both documents of
`corpusC5`. -/
def tagIdxC5 : TagIndex :=
  [("x", { name := "x", color := "tag-color-1", files := ["A.md", "B.md"] })]

/-- `defaultSettings` with tag connections switched on. -/
def settingsTagOn : GraphSettings :=
  { defaultSettings with showTagConnections := true }

/-- The node built for `A.md` of `corpusC5` (colored by tag `x`). -/
def nodeA5 : GraphNode :=
  { id := "A", name := "A", path := "A.md", radius := 12,
    isSelected := true, color := "tag-color-1" }

/-- The node built for `B.md` of `corpusC5`. -/
def nodeB5 : GraphNode :=
  { id := "B", name := "B", path := "B.md", radius := 12,
    isSelected := true, color := "tag-color-1" }

/-- The wiki link `B → A` the build produces for `corpusC5` when tag
connections are off. -/
def linkBA5 : GraphLink :=
  { source := nodeB5, target := nodeA5, type := "wiki-link", tag := none }

/-- A corpus whose only document links to the absent target `Z`. -/
def corpusC9 : Corpus := [("A.md", { file := "A", content := "", links := ["Z"] })]

/-- The node the build produces for `corpusC9`'s document. -/
def nodeA9 : GraphNode :=
  { id := "A", name := "A", path := "A.md", radius := 12,
    isSelected := true, color := "untagged-group-1" }

/-- A two-document corpus where `A` links to `B`. -/
def corpusAB : Corpus :=
  [("A.md", { file := "A", content := "", links := ["B"] }),
   ("B.md", { file := "B", content := "", links := [] })]

/-- The selection covering all of `corpusAB`. -/
def selAB : List String := ["A.md", "B.md"]

/-- The node built for `A.md` of `corpusAB`. -/
def nodeA : GraphNode :=
  { id := "A", name := "A", path := "A.md", radius := 12,
    isSelected := true, color := "untagged-group-1" }

/-- The node built for `B.md` of `corpusAB`. -/
def nodeB : GraphNode :=
  { id := "B", name := "B", path := "B.md", radius := 12,
    isSelected := true, color := "untagged-group-1" }

/-- The single wiki link the build produces for `corpusAB`. -/
def linkAB : GraphLink :=
  { source := nodeA, target := nodeB, type := "wiki-link", tag := none }

/-- Seven untagged documents. -/
def corpus7 : Corpus :=
  [("f0.md", { file := "f0", content := "", links := [] }),
   ("f1.md", { file := "f1", content := "", links := [] }),
   ("f2.md", { file := "f2", content := "", links := [] }),
   ("f3.md", { file := "f3", content := "", links := [] }),
   ("f4.md", { file := "f4", content := "", links := [] }),
   ("f5.md", { file := "f5", content := "", links := [] }),
   ("f6.md", { file := "f6", content := "", links := [] })]

/-- The selection covering all of `corpus7`. -/
def sel7 : List String :=
  ["f0.md", "f1.md", "f2.md", "f3.md", "f4.md", "f5.md", "f6.md"]

/-- A corpus for the tag-coloring witness: one document carrying tag `x`. -/
def corpusC7 : Corpus := [("A.md", { file := "A", content := "", links := [] })]

/-- The tag index for the tag-coloring witness. -/
def tagIdxC7 : TagIndex :=
  [("x", { name := "x", color := "tag-color-1", files := ["A.md"] })]

/-! ## Theorems -/

theorem nodeEntry_path_eq (allData : Corpus) (sel : List String) (tagsIdx : TagIndex)
    (p : String) (n : GraphNode) (h : nodeEntry allData sel tagsIdx p = some n) :
    n.path = p := by
  unfold nodeEntry at h
  cases hl : lookupData allData p with
  | none => rw [hl] at h; cases h
  | some fs => rw [hl] at h; cases h; rfl

/-- **C1** (corrected claim, counterexample): in the build actually used,
selecting a document by its basename alone yields no node at all, so the
three-spelling inclusion rule fails.  `corpusC1` holds one document with
path `A.md` and basename `A`; selecting `"A"` produces an empty node
array even though `"A"` is the document's basename. -/
theorem c1_basename_selection_excluded :
    (generateGraphData corpusC1 ["A"] [] defaultSettings).1 = [] ∧
    (lookupData corpusC1 "A.md").map (fun fs => fs.file) = some "A" ∧
    "A" ∈ ["A"] ∧
    ¬ ∃ n ∈ (generateGraphData corpusC1 ["A"] [] defaultSettings).1, n.path = "A.md" := by
  decide

/-- **C1** (amended): the node pass iterates the selection set and looks
each entry up in the corpus by exact path, so a document is included iff
its exact path is in the selection set and present in the corpus;
basename or extension-stripped spellings select nothing. -/
theorem c1_inclusion_exact_path (allData : Corpus) (sel : List String)
    (tagsIdx : TagIndex) (st : GraphSettings) (p : String) :
    (∃ n ∈ (generateGraphData allData sel tagsIdx st).1, n.path = p) ↔
      p ∈ sel ∧ (lookupData allData p).isSome := by
  unfold generateGraphData
  by_cases hs : sel.isEmpty
  · rw [List.isEmpty_iff] at hs
    subst hs
    simp
  · simp only [if_neg hs]
    unfold nodesOf
    constructor
    · rintro ⟨n, hn, hp⟩
      rw [List.mem_filterMap] at hn
      obtain ⟨a, ha, hea⟩ := hn
      have hpa : n.path = a := nodeEntry_path_eq _ _ _ _ _ hea
      rw [hp] at hpa
      subst hpa
      refine ⟨ha, ?_⟩
      unfold nodeEntry at hea
      cases hl : lookupData allData p with
      | none => rw [hl] at hea; cases hea
      | some fs => simp [hl]
    · rintro ⟨hp, hl⟩
      rw [Option.isSome_iff_exists] at hl
      obtain ⟨fs, hfs⟩ := hl
      refine ⟨mkNode fs p (nodeColorFor allData sel tagsIdx p), ?_, rfl⟩
      rw [List.mem_filterMap]
      exact ⟨p, hp, by unfold nodeEntry; rw [hfs]⟩

/-- Witness for the amended C1: selecting `A.md` by its exact path does
include its node. -/
theorem c1_inclusion_exact_path_witness :
    ∃ n ∈ (generateGraphData corpusC1 ["A.md"] [] defaultSettings).1, n.path = "A.md" :=
  (c1_inclusion_exact_path corpusC1 ["A.md"] [] defaultSettings "A.md").mpr (by decide)

/-- **C2** (code bug demonstration): `destroy` stops the tick callbacks
but leaves the container ResizeObserver observing (its reference was
dropped by `setupResizeObserver` and `destroy` never disconnects it), and
a later container-resize event restarts the simulation, so tick
callbacks run again after disposal. -/
theorem c2_destroy_leaks_observer :
    (destroy initRenderer).resizeObserverActive = true ∧
    ticksActive (destroy initRenderer) = false ∧
    ticksActive (onContainerResize (destroy initRenderer)) = true := by
  decide

/-- **C4**: an empty selection yields empty node and edge arrays, by the
early return of `generateGraphData`. -/
theorem c4_empty_selection (allData : Corpus) (tagsIdx : TagIndex)
    (st : GraphSettings) :
    generateGraphData allData [] tagsIdx st = ([], []) := rfl

/-- **C6**: seven untagged selected documents are bucketed in iteration
order into groups of three — sizes 3, 3, 1 — and each document is colored
with its group's token, the three groups getting three distinct tokens. -/
theorem c6_untagged_bucketing :
    (∀ a b c d e f g : String,
      createUntaggedGroups [a, b, c, d, e, f, g] =
        [(1, [a, b, c]), (2, [d, e, f]), (3, [g])]) ∧
    (generateGraphData corpus7 sel7 [] defaultSettings).1.map (fun n => n.color) =
      ["untagged-group-1", "untagged-group-1", "untagged-group-1",
       "untagged-group-2", "untagged-group-2", "untagged-group-2",
       "untagged-group-3"] := by
  constructor
  · intro a b c d e f g
    simp [createUntaggedGroups, addToGroup, List.enum, List.enumFrom]
  · decide

/-- **C8** (code bug demonstration): `destroy` never clears
`this.simulation`, so `restartSimulation` and `updateSimulation` called
on a destroyed handle pass their guard and call `.restart()`, resuming
simulation work; on a handle whose simulation was never created they are
no-ops as claimed. -/
theorem c8_reconfigure_after_destroy :
    ticksActive (restartSimulation (destroy initRenderer)) = true ∧
    ticksActive (updateSimulation (destroy initRenderer)) = true ∧
    updateSimulation { simulation := none, resizeObserverActive := true,
                       svgAttached := true, tooltipAttached := true } =
      { simulation := none, resizeObserverActive := true,
        svgAttached := true, tooltipAttached := true } ∧
    restartSimulation { simulation := none, resizeObserverActive := true,
                        svgAttached := true, tooltipAttached := true } =
      { simulation := none, resizeObserverActive := true,
        svgAttached := true, tooltipAttached := true } := by
  decide

/-- **C9**: an outbound link that resolves to no corpus entry leaves the
accumulated links untouched, and the dangling-link scenario
(`corpus = {A→[Z]}`, `Z` absent, `A` selected) builds one node and zero
edges. -/
theorem c9_dangling_link (allData : Corpus) (sel : List String)
    (nodeMap : List (String × GraphNode)) (src : GraphNode)
    (ls : List GraphLink) (link : String)
    (h : findTarget allData (stripMd link) = none) :
    processWikiLink allData sel nodeMap src ls link = ls ∧
    generateGraphData corpusC9 ["A.md"] [] defaultSettings = ([nodeA9], []) := by
  constructor
  · unfold processWikiLink; rw [h]
  · decide

/-- Witness for C9 at the dangling-link scenario itself. -/
theorem c9_dangling_link_witness :
    processWikiLink corpusC9 ["A.md"] [] nodeA9 [] "Z" = [] ∧
    generateGraphData corpusC9 ["A.md"] [] defaultSettings = ([nodeA9], []) :=
  c9_dangling_link corpusC9 ["A.md"] [] nodeA9 [] "Z" (by decide)

/-! ### The link pass as a sequence of attempts -/

theorem applyAttempts_cons (ls : List GraphLink) (a : Attempt) (atts : List Attempt) :
    applyAttempts ls (a :: atts) = applyAttempts (applyAttempt ls a) atts := rfl

theorem applyAttempts_append (ls : List GraphLink) (l1 l2 : List Attempt) :
    applyAttempts ls (l1 ++ l2) = applyAttempts (applyAttempts ls l1) l2 :=
  List.foldl_append _ _ _ _

theorem foldl_eq_applyAttempts {α : Type} (g : α → Option Attempt)
    (f : List GraphLink → α → List GraphLink)
    (hf : ∀ ls x, f ls x = match g x with | none => ls | some a => applyAttempt ls a)
    (xs : List α) : ∀ ls : List GraphLink, xs.foldl f ls = applyAttempts ls (xs.filterMap g) := by
  induction xs with
  | nil => intro ls; rfl
  | cons x xs ih =>
    intro ls
    rw [List.foldl_cons, hf]
    cases hg : g x with
    | none =>
      simp only [hg, List.filterMap_cons]
      exact ih ls
    | some a =>
      simp only [hg, List.filterMap_cons, applyAttempts_cons]
      exact ih (applyAttempt ls a)

theorem foldl_flat_eq_applyAttempts {α : Type} (g : α → List Attempt)
    (f : List GraphLink → α → List GraphLink)
    (hf : ∀ ls x, f ls x = applyAttempts ls (g x))
    (xs : List α) : ∀ ls : List GraphLink, xs.foldl f ls = applyAttempts ls (xs.flatMap g) := by
  induction xs with
  | nil => intro ls; rfl
  | cons x xs ih =>
    intro ls
    rw [List.foldl_cons, hf, List.flatMap_cons, applyAttempts_append]
    exact ih (applyAttempts ls (g x))

theorem processWikiLink_eq (allData : Corpus) (sel : List String)
    (nm : List (String × GraphNode)) (src : GraphNode) (ls : List GraphLink)
    (link : String) :
    processWikiLink allData sel nm src ls link =
      match wikiAttempt allData sel nm src link with
      | none => ls
      | some a => applyAttempt ls a := by
  unfold processWikiLink wikiAttempt
  cases hf : findTarget allData (stripMd link) with
  | none => simp only [hf]
  | some e =>
    obtain ⟨tp, tf⟩ := e
    simp only [hf]
    by_cases hc : sel.contains tp = true
    · rw [if_pos hc, if_pos hc]
      cases ho : orOpt (mapGet nm tf.file) (mapGet nm tp) with
      | none => simp only [ho]
      | some tn => simp only [ho]; rfl
    · rw [if_neg hc, if_neg hc]

theorem processTagTarget_eq (sel : List String) (nm : List (String × GraphNode))
    (path : String) (src : GraphNode) (tg : String) (ls : List GraphLink)
    (targetPath : String) :
    processTagTarget sel nm path src tg ls targetPath =
      match tagTargetAttempt sel nm path src tg targetPath with
      | none => ls
      | some a => applyAttempt ls a := by
  unfold processTagTarget tagTargetAttempt
  by_cases hc : targetPath ≠ path ∧ sel.contains targetPath = true
  · simp only [if_pos hc]
    cases mapGet nm targetPath with
    | none => rfl
    | some tn => rfl
  · simp only [if_neg hc]

theorem processTag_eq (tagsIdx : TagIndex) (sel : List String)
    (nm : List (String × GraphNode)) (path : String) (src : GraphNode)
    (ls : List GraphLink) (tg : String) :
    processTag tagsIdx sel nm path src ls tg =
      applyAttempts ls (tagAttemptsOf tagsIdx sel nm path src tg) := by
  unfold processTag tagAttemptsOf
  cases ht : lookupTag tagsIdx tg with
  | none => simp only [ht]; rfl
  | some td =>
    simp only [ht]
    exact foldl_eq_applyAttempts _ _
      (fun ls2 tp => processTagTarget_eq sel nm path src tg ls2 tp) td.files ls

theorem processPath_eq (allData : Corpus) (sel : List String) (tagsIdx : TagIndex)
    (st : GraphSettings) (nm : List (String × GraphNode)) (ls : List GraphLink)
    (path : String) :
    processPath allData sel tagsIdx st nm ls path =
      applyAttempts ls (pathWikiAttempts allData sel nm path ++
        (if st.showTagConnections then pathTagAttempts allData tagsIdx sel nm path else [])) := by
  unfold processPath pathWikiAttempts pathTagAttempts
  cases hd : lookupData allData path with
  | none => simp only [hd]; cases st.showTagConnections <;> rfl
  | some fs =>
    simp only [hd]
    cases ho : orOpt (mapGet nm fs.file) (mapGet nm path) with
    | none => simp only [ho]; cases st.showTagConnections <;> rfl
    | some src =>
      simp only [ho]
      have h1 : ∀ ls2 : List GraphLink,
          fs.links.foldl (processWikiLink allData sel nm src) ls2 =
            applyAttempts ls2 (fs.links.filterMap (wikiAttempt allData sel nm src)) :=
        foldl_eq_applyAttempts _ _ (fun ls2 l => processWikiLink_eq allData sel nm src ls2 l) fs.links
      cases hb : st.showTagConnections with
      | false =>
        simp only [if_neg Bool.false_ne_true, List.append_nil]
        exact h1 ls
      | true =>
        simp only [if_pos rfl]
        rw [applyAttempts_append, ← h1 ls]
        exact foldl_flat_eq_applyAttempts _ _
          (fun ls2 tg => processTag_eq tagsIdx sel nm path src ls2 tg)
          (tagsOfPath tagsIdx path) _

theorem linksOf_eq (allData : Corpus) (sel : List String) (tagsIdx : TagIndex)
    (st : GraphSettings) :
    linksOf allData sel tagsIdx st =
      applyAttempts []
        (agendaOf allData sel tagsIdx (nodeMapOf allData sel tagsIdx)
          st.showTagConnections) := by
  unfold linksOf agendaOf
  exact foldl_flat_eq_applyAttempts _ _
    (fun ls p => processPath_eq allData sel tagsIdx st (nodeMapOf allData sel tagsIdx) ls p)
    sel []

/-! ### Properties of attempt application -/

theorem linkExists_iff (ls : List GraphLink) (s t : GraphNode) :
    linkExists ls s t = true ↔ ∃ l ∈ ls, sameIds l s.id t.id := by
  unfold linkExists sameIds
  rw [List.any_eq_true]
  constructor
  · rintro ⟨l, hl, h⟩
    rw [Bool.or_eq_true, Bool.and_eq_true, Bool.and_eq_true] at h
    simp only [beq_iff_eq] at h
    exact ⟨l, hl, h⟩
  · rintro ⟨l, hl, h⟩
    refine ⟨l, hl, ?_⟩
    rw [Bool.or_eq_true, Bool.and_eq_true, Bool.and_eq_true]
    simp only [beq_iff_eq]
    exact h

theorem mem_of_mem_applyAttempt (ls : List GraphLink) (a : Attempt) (l : GraphLink)
    (h : l ∈ ls) : l ∈ applyAttempt ls a := by
  unfold applyAttempt tryAddLink
  by_cases h1 : a.src.id ≠ a.tgt.id
  · rw [if_pos h1]
    by_cases h2 : linkExists ls a.src a.tgt = true
    · rw [if_pos h2]; exact h
    · rw [if_neg h2]; exact List.mem_append_left _ h
  · rw [if_neg h1]; exact h

theorem mem_applyAttempt (ls : List GraphLink) (a : Attempt) (l : GraphLink)
    (h : l ∈ applyAttempt ls a) :
    l ∈ ls ∨ (l = mkLink a ∧ a.src.id ≠ a.tgt.id) := by
  unfold applyAttempt tryAddLink at h
  by_cases h1 : a.src.id ≠ a.tgt.id
  · rw [if_pos h1] at h
    by_cases h2 : linkExists ls a.src a.tgt = true
    · rw [if_pos h2] at h; exact Or.inl h
    · rw [if_neg h2] at h
      rcases List.mem_append.mp h with h3 | h3
      · exact Or.inl h3
      · rw [List.mem_singleton] at h3
        exact Or.inr ⟨h3, h1⟩
  · rw [if_neg h1] at h; exact Or.inl h

theorem mem_applyAttempts (atts : List Attempt) :
    ∀ (ls : List GraphLink) (l : GraphLink), l ∈ applyAttempts ls atts →
      l ∈ ls ∨ ∃ a ∈ atts, l = mkLink a ∧ a.src.id ≠ a.tgt.id := by
  induction atts with
  | nil => intro ls l h; exact Or.inl h
  | cons a atts ih =>
    intro ls l h
    rw [applyAttempts_cons] at h
    rcases ih _ _ h with h1 | ⟨b, hb, h2, h3⟩
    · rcases mem_applyAttempt _ _ _ h1 with h4 | ⟨h4, h5⟩
      · exact Or.inl h4
      · exact Or.inr ⟨a, List.mem_cons_self a atts, h4, h5⟩
    · exact Or.inr ⟨b, List.mem_cons_of_mem a hb, h2, h3⟩

theorem pairIn_applyAttempt_mono (ls : List GraphLink) (a : Attempt) (x y : String)
    (h : PairIn ls x y) : PairIn (applyAttempt ls a) x y := by
  obtain ⟨l, hl, hs⟩ := h
  exact ⟨l, mem_of_mem_applyAttempt ls a l hl, hs⟩

theorem pairIn_applyAttempts_mono (atts : List Attempt) :
    ∀ (ls : List GraphLink) (x y : String), PairIn ls x y →
      PairIn (applyAttempts ls atts) x y := by
  induction atts with
  | nil => intro ls x y h; exact h
  | cons a atts ih =>
    intro ls x y h
    rw [applyAttempts_cons]
    exact ih _ x y (pairIn_applyAttempt_mono ls a x y h)

theorem sameIds_flip (l1 l2 : GraphLink)
    (h : sameIds l1 l2.source.id l2.target.id) :
    sameIds l2 l1.source.id l1.target.id := by
  unfold sameIds at h ⊢
  rcases h with ⟨h1, h2⟩ | ⟨h1, h2⟩
  · exact Or.inl ⟨h1.symm, h2.symm⟩
  · exact Or.inr ⟨h2.symm, h1.symm⟩

theorem pairIn_symm (ls : List GraphLink) (x y : String) (h : PairIn ls x y) :
    PairIn ls y x := by
  obtain ⟨l, hl, hs⟩ := h
  rcases hs with ⟨h1, h2⟩ | ⟨h1, h2⟩
  · exact ⟨l, hl, Or.inr ⟨h1, h2⟩⟩
  · exact ⟨l, hl, Or.inl ⟨h1, h2⟩⟩

theorem pairIn_applyAttempt_self (ls : List GraphLink) (a : Attempt)
    (h : a.src.id ≠ a.tgt.id) :
    PairIn (applyAttempt ls a) a.src.id a.tgt.id := by
  unfold applyAttempt tryAddLink
  rw [if_pos h]
  by_cases h2 : linkExists ls a.src a.tgt = true
  · rw [if_pos h2]
    exact (linkExists_iff ls a.src a.tgt).mp h2
  · rw [if_neg h2]
    exact ⟨_, List.mem_append_right _ (List.mem_singleton_self _), Or.inl ⟨rfl, rfl⟩⟩

theorem pairIn_applyAttempts_iff (atts : List Attempt) :
    ∀ (ls : List GraphLink) (x y : String),
      PairIn (applyAttempts ls atts) x y ↔
        PairIn ls x y ∨ ∃ a ∈ atts, a.src.id ≠ a.tgt.id ∧ sameIds (mkLink a) x y := by
  induction atts with
  | nil =>
    intro ls x y
    simp only [applyAttempts, List.foldl_nil]
    constructor
    · exact Or.inl
    · rintro (h | ⟨a, ha, _⟩)
      · exact h
      · cases ha
  | cons a atts ih =>
    intro ls x y
    rw [applyAttempts_cons, ih]
    constructor
    · rintro (h | ⟨b, hb, h3, h4⟩)
      · obtain ⟨l, hl, hs⟩ := h
        rcases mem_applyAttempt ls a l hl with h2 | ⟨rfl, hne⟩
        · exact Or.inl ⟨l, h2, hs⟩
        · exact Or.inr ⟨a, List.mem_cons_self a atts, hne, hs⟩
      · exact Or.inr ⟨b, List.mem_cons_of_mem a hb, h3, h4⟩
    · rintro (h | ⟨b, hb, hne, hs⟩)
      · exact Or.inl (pairIn_applyAttempt_mono ls a x y h)
      · rcases List.mem_cons.mp hb with rfl | hb2
        · left
          have hp := pairIn_applyAttempt_self ls b hne
          rcases hs with ⟨h1, h2⟩ | ⟨h1, h2⟩
          · rw [← h1, ← h2]; exact hp
          · rw [← h1, ← h2]; exact pairIn_symm _ _ _ hp
        · exact Or.inr ⟨b, hb2, hne, hs⟩

/-- **C3**: in every built graph, no two edges join the same unordered
pair of node ids (hence no two edges share an unordered endpoint pair,
whatever their kinds), and no edge joins a node id to itself. -/
theorem c3_edge_dedup (allData : Corpus) (sel : List String) (tagsIdx : TagIndex)
    (st : GraphSettings) :
    (generateGraphData allData sel tagsIdx st).2.Pairwise
      (fun u v => ¬ sameIds v u.source.id u.target.id) ∧
    ∀ l ∈ (generateGraphData allData sel tagsIdx st).2,
      l.source.id ≠ l.target.id := by
  unfold generateGraphData
  by_cases hs : sel.isEmpty
  · simp [hs]
  · simp only [if_neg hs]
    show (linksOf allData sel tagsIdx st).Pairwise _ ∧ _
    rw [linksOf_eq]
    generalize agendaOf allData sel tagsIdx (nodeMapOf allData sel tagsIdx)
      st.showTagConnections = atts
    have key : ∀ (atts : List Attempt) (ls : List GraphLink),
        ls.Pairwise (fun u v => ¬ sameIds v u.source.id u.target.id) →
        (∀ l ∈ ls, l.source.id ≠ l.target.id) →
        (applyAttempts ls atts).Pairwise (fun u v => ¬ sameIds v u.source.id u.target.id) ∧
          ∀ l ∈ applyAttempts ls atts, l.source.id ≠ l.target.id := by
      intro atts
      induction atts with
      | nil => intro ls h1 h2; exact ⟨h1, h2⟩
      | cons a atts ih =>
        intro ls h1 h2
        rw [applyAttempts_cons]
        have step : (applyAttempt ls a).Pairwise
            (fun u v => ¬ sameIds v u.source.id u.target.id) ∧
            ∀ l ∈ applyAttempt ls a, l.source.id ≠ l.target.id := by
          unfold applyAttempt tryAddLink
          by_cases g1 : a.src.id ≠ a.tgt.id
          · rw [if_pos g1]
            by_cases g2 : linkExists ls a.src a.tgt = true
            · rw [if_pos g2]; exact ⟨h1, h2⟩
            · rw [if_neg g2]
              constructor
              · rw [List.pairwise_append]
                refine ⟨h1, List.pairwise_singleton _ _, ?_⟩
                intro u hu v hv
                rw [List.mem_singleton] at hv
                subst hv
                intro hcon
                apply g2
                rw [linkExists_iff]
                exact ⟨u, hu, sameIds_flip _ u hcon⟩
              · intro l hl
                rcases List.mem_append.mp hl with h3 | h3
                · exact h2 l h3
                · rw [List.mem_singleton] at h3; subst h3; exact g1
          · rw [if_neg g1]; exact ⟨h1, h2⟩
        exact ih _ step.1 step.2
    exact key atts [] List.Pairwise.nil (by intro l hl; cases hl)

/-- Witness for C3: the single edge of the `corpusAB` build joins two
distinct node ids. -/
theorem c3_edge_dedup_witness : linkAB.source.id ≠ linkAB.target.id :=
  (c3_edge_dedup corpusAB selAB [] defaultSettings).2 linkAB (by decide)

/-! ### The node map only holds constructed nodes -/

theorem mapGet_append (m1 m2 : List (String × GraphNode)) (k : String) :
    mapGet (m1 ++ m2) k =
      match mapGet m2 k with
      | some v => some v
      | none => mapGet m1 k := by
  unfold mapGet
  rw [List.reverse_append, List.find?_append]
  cases m2.reverse.find? (fun e => e.1 == k) with
  | none => simp [Option.or]
  | some e => simp [Option.or]

theorem mapGet_pair_val (a b : String) (v : GraphNode) (k : String) (n : GraphNode)
    (h : mapGet [(a, v), (b, v)] k = some n) : n = v := by
  unfold mapGet at h
  simp only [List.reverse_cons, List.reverse_nil, List.nil_append,
    List.cons_append, List.find?_cons] at h
  split at h
  · simp at h; exact h.symm
  · split at h
    · simp at h; exact h.symm
    · simp at h

theorem mapGet_nodeMapOf (allData : Corpus) (sel : List String) (tagsIdx : TagIndex)
    (k : String) (n : GraphNode)
    (h : mapGet (nodeMapOf allData sel tagsIdx) k = some n) :
    n ∈ nodesOf allData sel tagsIdx := by
  have main : ∀ (l : List String) (m : List (String × GraphNode)),
      mapGet (l.foldl (fun m p =>
        match nodeEntry allData sel tagsIdx p with
        | none => m
        | some n0 => m ++ [(n0.id, n0), (n0.path, n0)]) m) k = some n →
      mapGet m k = some n ∨ ∃ p ∈ l, nodeEntry allData sel tagsIdx p = some n := by
    intro l
    induction l with
    | nil => intro m h2; exact Or.inl h2
    | cons p rest ih =>
      intro m h2
      rw [List.foldl_cons] at h2
      cases he : nodeEntry allData sel tagsIdx p with
      | none =>
        simp only [he] at h2
        rcases ih _ h2 with h3 | ⟨q, hq, h4⟩
        · exact Or.inl h3
        · exact Or.inr ⟨q, List.mem_cons_of_mem _ hq, h4⟩
      | some n0 =>
        simp only [he] at h2
        rcases ih _ h2 with h3 | ⟨q, hq, h4⟩
        · rw [mapGet_append] at h3
          cases hg : mapGet [(n0.id, n0), (n0.path, n0)] k with
          | none =>
            simp only [hg] at h3
            exact Or.inl h3
          | some v =>
            simp only [hg] at h3
            injection h3 with h5
            have hv : v = n0 := mapGet_pair_val n0.id n0.path n0 k v hg
            refine Or.inr ⟨p, List.mem_cons_self p rest, ?_⟩
            rw [he, ← h5, hv]
        · exact Or.inr ⟨q, List.mem_cons_of_mem _ hq, h4⟩
  unfold nodeMapOf at h
  rcases main sel [] h with h1 | ⟨p, hp, h2⟩
  · exact absurd h1 (by unfold mapGet; simp)
  · exact List.mem_filterMap.mpr ⟨p, hp, h2⟩

theorem orOpt_eq_some (a b : Option GraphNode) (v : GraphNode)
    (h : orOpt a b = some v) : a = some v ∨ b = some v := by
  unfold orOpt at h
  cases a with
  | none => exact Or.inr h
  | some n => exact Or.inl h

theorem wikiAttempt_spec (allData : Corpus) (sel : List String)
    (nm : List (String × GraphNode)) (src : GraphNode) (link : String) (a : Attempt)
    (h : wikiAttempt allData sel nm src link = some a) :
    a.src = src ∧ (∃ k, mapGet nm k = some a.tgt) ∧ a.ty = "wiki-link" := by
  unfold wikiAttempt at h
  cases hf : findTarget allData (stripMd link) with
  | none => simp only [hf] at h; exact Option.noConfusion h
  | some e =>
    obtain ⟨tp, tf⟩ := e
    simp only [hf] at h
    by_cases hc : sel.contains tp = true
    · rw [if_pos hc] at h
      cases ho : orOpt (mapGet nm tf.file) (mapGet nm tp) with
      | none => simp only [ho] at h; exact Option.noConfusion h
      | some tn =>
        simp only [ho] at h
        injection h with h2
        subst h2
        refine ⟨rfl, ?_, rfl⟩
        rcases orOpt_eq_some _ _ _ ho with h1 | h1
        · exact ⟨tf.file, h1⟩
        · exact ⟨tp, h1⟩
    · rw [if_neg hc] at h; exact Option.noConfusion h

theorem tagTargetAttempt_spec (sel : List String) (nm : List (String × GraphNode))
    (path : String) (src : GraphNode) (tg : String) (targetPath : String) (a : Attempt)
    (h : tagTargetAttempt sel nm path src tg targetPath = some a) :
    a.src = src ∧ (∃ k, mapGet nm k = some a.tgt) ∧ a.ty = "tag-link" := by
  unfold tagTargetAttempt at h
  by_cases hc : targetPath ≠ path ∧ sel.contains targetPath = true
  · rw [if_pos hc] at h
    cases hm : mapGet nm targetPath with
    | none => simp only [hm] at h; exact Option.noConfusion h
    | some tn =>
      simp only [hm] at h
      injection h with h2
      subst h2
      exact ⟨rfl, ⟨targetPath, hm⟩, rfl⟩
  · rw [if_neg hc] at h; exact Option.noConfusion h

theorem pathWikiAttempts_spec (allData : Corpus) (sel : List String)
    (nm : List (String × GraphNode)) (p : String) (a : Attempt)
    (h : a ∈ pathWikiAttempts allData sel nm p) :
    (∃ k, mapGet nm k = some a.src) ∧ (∃ k, mapGet nm k = some a.tgt) ∧
      a.ty = "wiki-link" := by
  unfold pathWikiAttempts at h
  cases hd : lookupData allData p with
  | none => simp only [hd] at h; cases h
  | some fs =>
    simp only [hd] at h
    cases ho : orOpt (mapGet nm fs.file) (mapGet nm p) with
    | none => simp only [ho] at h; cases h
    | some src =>
      simp only [ho] at h
      rw [List.mem_filterMap] at h
      obtain ⟨l, _, hw⟩ := h
      obtain ⟨h1, h2, h3⟩ := wikiAttempt_spec allData sel nm src l a hw
      refine ⟨?_, h2, h3⟩
      rw [h1]
      rcases orOpt_eq_some _ _ _ ho with h4 | h4
      · exact ⟨fs.file, h4⟩
      · exact ⟨p, h4⟩

theorem pathTagAttempts_spec (allData : Corpus) (tagsIdx : TagIndex)
    (sel : List String) (nm : List (String × GraphNode)) (p : String) (a : Attempt)
    (h : a ∈ pathTagAttempts allData tagsIdx sel nm p) :
    (∃ k, mapGet nm k = some a.src) ∧ (∃ k, mapGet nm k = some a.tgt) ∧
      a.ty = "tag-link" := by
  unfold pathTagAttempts at h
  cases hd : lookupData allData p with
  | none => simp only [hd] at h; cases h
  | some fs =>
    simp only [hd] at h
    cases ho : orOpt (mapGet nm fs.file) (mapGet nm p) with
    | none => simp only [ho] at h; cases h
    | some src =>
      simp only [ho] at h
      rw [List.mem_flatMap] at h
      obtain ⟨tg, _, ht⟩ := h
      unfold tagAttemptsOf at ht
      cases hl : lookupTag tagsIdx tg with
      | none => simp only [hl] at ht; cases ht
      | some td =>
        simp only [hl] at ht
        rw [List.mem_filterMap] at ht
        obtain ⟨tp, _, hta⟩ := ht
        obtain ⟨h1, h2, h3⟩ := tagTargetAttempt_spec sel nm p src tg tp a hta
        refine ⟨?_, h2, h3⟩
        rw [h1]
        rcases orOpt_eq_some _ _ _ ho with h4 | h4
        · exact ⟨fs.file, h4⟩
        · exact ⟨p, h4⟩

theorem agendaOf_spec (allData : Corpus) (sel : List String) (tagsIdx : TagIndex)
    (nm : List (String × GraphNode)) (flag : Bool) (a : Attempt)
    (h : a ∈ agendaOf allData sel tagsIdx nm flag) :
    (∃ k, mapGet nm k = some a.src) ∧ (∃ k, mapGet nm k = some a.tgt) := by
  unfold agendaOf at h
  rw [List.mem_flatMap] at h
  obtain ⟨p, _, hp⟩ := h
  rcases List.mem_append.mp hp with h1 | h1
  · obtain ⟨h2, h3, _⟩ := pathWikiAttempts_spec allData sel nm p a h1
    exact ⟨h2, h3⟩
  · cases flag with
    | false => rw [if_neg Bool.false_ne_true] at h1; cases h1
    | true =>
      rw [if_pos rfl] at h1
      obtain ⟨h2, h3, _⟩ := pathTagAttempts_spec allData tagsIdx sel nm p a h1
      exact ⟨h2, h3⟩

/-- **C10**: every edge of a built graph has its source and target among
the built nodes — edges are created only through `nodeMap` lookups, and
`nodeMap` holds exactly the constructed nodes. -/
theorem c10_edges_reference_nodes (allData : Corpus) (sel : List String)
    (tagsIdx : TagIndex) (st : GraphSettings) (l : GraphLink)
    (hl : l ∈ (generateGraphData allData sel tagsIdx st).2) :
    l.source ∈ (generateGraphData allData sel tagsIdx st).1 ∧
    l.target ∈ (generateGraphData allData sel tagsIdx st).1 := by
  unfold generateGraphData at hl ⊢
  by_cases hs : sel.isEmpty
  · rw [if_pos hs] at hl; cases hl
  · rw [if_neg hs] at hl ⊢
    replace hl : l ∈ linksOf allData sel tagsIdx st := hl
    rw [linksOf_eq] at hl
    rcases mem_applyAttempts _ _ _ hl with h1 | ⟨a, ha, rfl, _⟩
    · cases h1
    · obtain ⟨⟨k1, hk1⟩, k2, hk2⟩ := agendaOf_spec _ _ _ _ _ _ ha
      exact ⟨mapGet_nodeMapOf _ _ _ _ _ hk1, mapGet_nodeMapOf _ _ _ _ _ hk2⟩

/-- Witness for C10: the endpoints of the single `corpusAB` edge are
among the built nodes. -/
theorem c10_edges_reference_nodes_witness :
    linkAB.source ∈ (generateGraphData corpusAB selAB [] defaultSettings).1 ∧
    linkAB.target ∈ (generateGraphData corpusAB selAB [] defaultSettings).1 :=
  c10_edges_reference_nodes corpusAB selAB [] defaultSettings linkAB (by decide)

/-! ### The tag-connection toggle -/

theorem agendaOf_false_subset (allData : Corpus) (sel : List String)
    (tagsIdx : TagIndex) (nm : List (String × GraphNode)) (a : Attempt)
    (h : a ∈ agendaOf allData sel tagsIdx nm false) :
    a ∈ agendaOf allData sel tagsIdx nm true := by
  unfold agendaOf at h ⊢
  rw [List.mem_flatMap] at h ⊢
  obtain ⟨p, hp, ha⟩ := h
  refine ⟨p, hp, ?_⟩
  rcases List.mem_append.mp ha with h1 | h1
  · exact List.mem_append_left _ h1
  · rw [if_neg Bool.false_ne_true] at h1; cases h1

theorem agendaOf_true_split (allData : Corpus) (sel : List String)
    (tagsIdx : TagIndex) (nm : List (String × GraphNode)) (a : Attempt)
    (h : a ∈ agendaOf allData sel tagsIdx nm true) :
    a ∈ agendaOf allData sel tagsIdx nm false ∨ a.ty = "tag-link" := by
  unfold agendaOf at h ⊢
  rw [List.mem_flatMap] at h
  obtain ⟨p, hp, ha⟩ := h
  rcases List.mem_append.mp ha with h1 | h1
  · left
    rw [List.mem_flatMap]
    exact ⟨p, hp, List.mem_append_left _ h1⟩
  · rw [if_pos rfl] at h1
    exact Or.inr (pathTagAttempts_spec allData tagsIdx sel nm p a h1).2.2

/-- **C5** (corrected claim, counterexample): with the corpus
`{A, B→[A]}`, the tag `x` on both documents and both selected, turning
tag connections off yields the explicit wiki link `B→A`, but turning
them on yields only the shared-tag edge `A–B` discovered first — so the
edge set with the toggle off is not a subset of the edge set with it on,
and the two sets also differ by a non-shared-tag edge. -/
theorem c5_toggle_counterexample :
    linkBA5 ∈ (generateGraphData corpusC5 ["A.md", "B.md"] tagIdxC5 defaultSettings).2 ∧
    linkBA5 ∉ (generateGraphData corpusC5 ["A.md", "B.md"] tagIdxC5 settingsTagOn).2 ∧
    linkBA5.type = "wiki-link" ∧
    ¬ ∀ e ∈ (generateGraphData corpusC5 ["A.md", "B.md"] tagIdxC5 defaultSettings).2,
        e ∈ (generateGraphData corpusC5 ["A.md", "B.md"] tagIdxC5 settingsTagOn).2 := by
  decide

/-- **C5** (amended): at the level of unordered endpoint-id pairs the
toggle is monotone — every pair connected with tag connections off is
connected with them on, and every pair connected only with them on is
carried by a shared-tag edge.  The edge sets themselves need not be in a
subset relation, because a shared-tag edge discovered first suppresses a
later explicit link between the same pair. -/
theorem c5_tag_toggle_pairs (allData : Corpus) (sel : List String)
    (tagsIdx : TagIndex) (st : GraphSettings) (x y : String) :
    (PairIn (generateGraphData allData sel tagsIdx
        { st with showTagConnections := false }).2 x y →
      PairIn (generateGraphData allData sel tagsIdx
        { st with showTagConnections := true }).2 x y) ∧
    (PairIn (generateGraphData allData sel tagsIdx
        { st with showTagConnections := true }).2 x y →
      ¬ PairIn (generateGraphData allData sel tagsIdx
        { st with showTagConnections := false }).2 x y →
      ∃ l ∈ (generateGraphData allData sel tagsIdx
        { st with showTagConnections := true }).2,
        l.type = "tag-link" ∧ sameIds l x y) := by
  unfold generateGraphData
  by_cases hs : sel.isEmpty
  · rw [if_pos hs, if_pos hs]
    constructor
    · intro h; exact h
    · intro h _
      obtain ⟨l, hl, _⟩ := h
      cases hl
  · rw [if_neg hs, if_neg hs]
    constructor
    · intro h
      replace h : PairIn (linksOf allData sel tagsIdx
          { st with showTagConnections := false }) x y := h
      rw [linksOf_eq, pairIn_applyAttempts_iff] at h
      rcases h with h | ⟨a, ha, hne, hsame⟩
      · obtain ⟨l, hl, _⟩ := h; cases hl
      · show PairIn (linksOf allData sel tagsIdx
          { st with showTagConnections := true }) x y
        rw [linksOf_eq, pairIn_applyAttempts_iff]
        refine Or.inr ⟨a, ?_, hne, hsame⟩
        exact agendaOf_false_subset _ _ _ _ _ ha
    · intro h hnf
      obtain ⟨l, hl, hsame⟩ := h
      refine ⟨l, hl, ?_, hsame⟩
      replace hl : l ∈ linksOf allData sel tagsIdx
          { st with showTagConnections := true } := hl
      rw [linksOf_eq] at hl
      rcases mem_applyAttempts _ _ _ hl with h1 | ⟨a, ha, rfl, hne⟩
      · cases h1
      · have ha2 : a ∈ agendaOf allData sel tagsIdx
            (nodeMapOf allData sel tagsIdx) true := ha
        rcases agendaOf_true_split _ _ _ _ _ ha2 with h2 | h2
        · exfalso
          apply hnf
          show PairIn (linksOf allData sel tagsIdx
            { st with showTagConnections := false }) x y
          rw [linksOf_eq, pairIn_applyAttempts_iff]
          exact Or.inr ⟨a, h2, hne, hsame⟩
        · exact h2

/-- Witness for the amended C5: the wiki pair `A–B` of `corpusAB` stays
connected when tag connections are switched on. -/
theorem c5_tag_toggle_pairs_witness :
    PairIn (generateGraphData corpusAB selAB []
      { defaultSettings with showTagConnections := true }).2 "A" "B" :=
  (c5_tag_toggle_pairs corpusAB selAB [] defaultSettings "A" "B").1 (by decide)

/-! ### The head of the stable descending sort is the first maximum -/

theorem head_insertDesc (key : String → Nat) (x : String) (l : List String) :
    (insertDesc key x l).head? = pickMax key l.head? x := by
  cases l with
  | nil => rfl
  | cons y ys =>
    show (if key x ≤ key y then y :: insertDesc key x ys else x :: y :: ys).head? =
      if key x ≤ key y then some y else some x
    by_cases h : key x ≤ key y
    · rw [if_pos h, if_pos h]; rfl
    · rw [if_neg h, if_neg h]; rfl

theorem head_sortDesc_foldl (key : String → Nat) (xs : List String) :
    ∀ acc : List String,
      (xs.foldl (fun a x => insertDesc key x a) acc).head? =
        xs.foldl (pickMax key) acc.head? := by
  induction xs with
  | nil => intro acc; rfl
  | cons x xs ih =>
    intro acc
    rw [List.foldl_cons, List.foldl_cons, ih (insertDesc key x acc), head_insertDesc]

theorem head_sortDesc (key : String → Nat) (xs : List String) :
    (sortDesc key xs).head? = xs.foldl (pickMax key) none := by
  unfold sortDesc
  rw [head_sortDesc_foldl]
  rfl

theorem foldl_pickMax_some (key : String → Nat) (xs : List String) :
    ∀ y : String, ∃ m, xs.foldl (pickMax key) (some y) = some m := by
  induction xs with
  | nil => intro y; exact ⟨y, rfl⟩
  | cons x xs ih =>
    intro y
    rw [List.foldl_cons]
    show ∃ m, xs.foldl (pickMax key) (if key x ≤ key y then some y else some x) = some m
    by_cases h : key x ≤ key y
    · rw [if_pos h]; exact ih y
    · rw [if_neg h]; exact ih x

theorem foldl_pickMax_char (key : String → Nat) (xs : List String) :
    ∀ y m : String, xs.foldl (pickMax key) (some y) = some m →
      (m = y ∧ ∀ t ∈ xs, key t ≤ key y) ∨
      (∃ l1 l2, xs = l1 ++ m :: l2 ∧ key y < key m ∧
        (∀ t ∈ l1, key t < key m) ∧ (∀ t ∈ l2, key t ≤ key m)) := by
  induction xs with
  | nil =>
    intro y m h
    rw [List.foldl_nil] at h
    injection h with h2
    exact Or.inl ⟨h2.symm, by intro t ht; cases ht⟩
  | cons x xs ih =>
    intro y m h
    rw [List.foldl_cons] at h
    by_cases hx : key x ≤ key y
    · rw [show pickMax key (some y) x = some y from by
        show (if key x ≤ key y then some y else some x) = some y
        rw [if_pos hx]] at h
      rcases ih y m h with ⟨rfl, hall⟩ | ⟨l1, l2, rfl, h1, h2, h3⟩
      · left
        refine ⟨rfl, ?_⟩
        intro t ht
        rcases List.mem_cons.mp ht with rfl | ht2
        · exact hx
        · exact hall t ht2
      · right
        refine ⟨x :: l1, l2, rfl, h1, ?_, h3⟩
        intro t ht
        rcases List.mem_cons.mp ht with rfl | ht2
        · omega
        · exact h2 t ht2
    · rw [show pickMax key (some y) x = some x from by
        show (if key x ≤ key y then some y else some x) = some x
        rw [if_neg hx]] at h
      rcases ih x m h with ⟨rfl, hall⟩ | ⟨l1, l2, rfl, h1, h2, h3⟩
      · right
        exact ⟨[], xs, rfl, by omega, (by intro t ht; cases ht), hall⟩
      · right
        refine ⟨x :: l1, l2, rfl, by omega, ?_, h3⟩
        intro t ht
        rcases List.mem_cons.mp ht with rfl | ht2
        · exact h1
        · exact h2 t ht2

theorem firstMax_of_foldl (key : String → Nat) (xs : List String) (m : String)
    (h : xs.foldl (pickMax key) none = some m) :
    ∃ l1 l2, xs = l1 ++ m :: l2 ∧ (∀ t ∈ l1, key t < key m) ∧
      ∀ t ∈ l2, key t ≤ key m := by
  cases xs with
  | nil => rw [List.foldl_nil] at h; exact Option.noConfusion h
  | cons x rest =>
    rw [List.foldl_cons] at h
    replace h : rest.foldl (pickMax key) (some x) = some m := h
    rcases foldl_pickMax_char key rest x m h with ⟨rfl, hall⟩ | ⟨l1, l2, rfl, h1, h2, h3⟩
    · exact ⟨[], rest, rfl, (by intro t ht; cases ht), hall⟩
    · refine ⟨x :: l1, l2, rfl, ?_, h3⟩
      intro t ht
      rcases List.mem_cons.mp ht with rfl | ht2
      · exact h1
      · exact h2 t ht2

theorem lookupTag_of_mem_tagsOfPath (tagsIdx : TagIndex) (p t : String)
    (h : t ∈ tagsOfPath tagsIdx p) : ∃ tg, lookupTag tagsIdx t = some tg := by
  unfold tagsOfPath at h
  rw [List.mem_map] at h
  obtain ⟨e, he, rfl⟩ := h
  have he2 : e ∈ tagsIdx := List.mem_of_mem_filter he
  have hsome : (tagsIdx.find? (fun x => x.1 == e.1)).isSome = true := by
    rw [List.find?_isSome]
    exact ⟨e, he2, by simp⟩
  rw [Option.isSome_iff_exists] at hsome
  obtain ⟨e0, he0⟩ := hsome
  refine ⟨e0.2, ?_⟩
  unfold lookupTag
  rw [he0]
  rfl

/-- **C7**: every included document with at least one tag membership is
colored with the color of the tag that has the most selected members
among the document's memberships, ties resolved in favor of the tag
discovered first in tag-index iteration order (the stable descending
sort keeps earlier tags first among equal counts). -/
theorem c7_most_populous_tag (allData : Corpus) (sel : List String)
    (tagsIdx : TagIndex) (st : GraphSettings) (p : String)
    (hp : p ∈ sel) (hin : (lookupData allData p).isSome = true)
    (hne : tagsOfPath tagsIdx p ≠ []) :
    ∃ tname tg l1 l2,
      tagsOfPath tagsIdx p = l1 ++ tname :: l2 ∧
      (∀ t ∈ l1, tagMemberCount allData sel tagsIdx t <
        tagMemberCount allData sel tagsIdx tname) ∧
      (∀ t ∈ l2, tagMemberCount allData sel tagsIdx t ≤
        tagMemberCount allData sel tagsIdx tname) ∧
      lookupTag tagsIdx tname = some tg ∧
      ∃ n ∈ (generateGraphData allData sel tagsIdx st).1,
        n.path = p ∧ n.color = tg.color := by
  obtain ⟨x, rest, hxs⟩ : ∃ x rest, tagsOfPath tagsIdx p = x :: rest := by
    cases h0 : tagsOfPath tagsIdx p with
    | nil => exact absurd h0 hne
    | cons x r => exact ⟨x, r, rfl⟩
  obtain ⟨m, hm⟩ : ∃ m, (tagsOfPath tagsIdx p).foldl
      (pickMax (tagMemberCount allData sel tagsIdx)) none = some m := by
    rw [hxs, List.foldl_cons]
    exact foldl_pickMax_some (tagMemberCount allData sel tagsIdx) rest x
  obtain ⟨l1, l2, hsplit, hlt, hle⟩ :=
    firstMax_of_foldl (tagMemberCount allData sel tagsIdx) (tagsOfPath tagsIdx p) m hm
  have hmem : m ∈ tagsOfPath tagsIdx p := by
    rw [hsplit]
    exact List.mem_append_right _ (List.mem_cons_self _ _)
  obtain ⟨tg, htg⟩ := lookupTag_of_mem_tagsOfPath tagsIdx p m hmem
  refine ⟨m, tg, l1, l2, hsplit, hlt, hle, htg, ?_⟩
  rw [Option.isSome_iff_exists] at hin
  obtain ⟨fs, hfs⟩ := hin
  have hcolor : nodeColorFor allData sel tagsIdx p = tg.color := by
    unfold nodeColorFor taggedColor
    have hE : (tagsOfPath tagsIdx p).isEmpty = false := by rw [hxs]; rfl
    rw [if_neg (by rw [hE]; exact Bool.false_ne_true)]
    have hhead : (sortDesc (tagMemberCount allData sel tagsIdx)
        (tagsOfPath tagsIdx p)).head? = some m := by
      rw [head_sortDesc]
      exact hm
    cases hsort : sortDesc (tagMemberCount allData sel tagsIdx)
        (tagsOfPath tagsIdx p) with
    | nil => rw [hsort] at hhead; exact Option.noConfusion hhead
    | cons t0 rest2 =>
      rw [hsort] at hhead
      injection hhead with h2
      subst h2
      simp only [hsort, htg]
  refine ⟨mkNode fs p (nodeColorFor allData sel tagsIdx p), ?_, rfl, hcolor⟩
  unfold generateGraphData
  have hsne : sel.isEmpty ≠ true := by
    cases sel with
    | nil => cases hp
    | cons q qs => simp
  rw [if_neg hsne]
  show mkNode fs p (nodeColorFor allData sel tagsIdx p) ∈ nodesOf allData sel tagsIdx
  unfold nodesOf
  rw [List.mem_filterMap]
  refine ⟨p, hp, ?_⟩
  unfold nodeEntry
  rw [hfs]

/-- Witness for C7: the single tagged document of `corpusC7` is colored
with its tag's color. -/
theorem c7_most_populous_tag_witness :
    ∃ tname tg l1 l2,
      tagsOfPath tagIdxC7 "A.md" = l1 ++ tname :: l2 ∧
      (∀ t ∈ l1, tagMemberCount corpusC7 ["A.md"] tagIdxC7 t <
        tagMemberCount corpusC7 ["A.md"] tagIdxC7 tname) ∧
      (∀ t ∈ l2, tagMemberCount corpusC7 ["A.md"] tagIdxC7 t ≤
        tagMemberCount corpusC7 ["A.md"] tagIdxC7 tname) ∧
      lookupTag tagIdxC7 tname = some tg ∧
      ∃ n ∈ (generateGraphData corpusC7 ["A.md"] tagIdxC7 defaultSettings).1,
        n.path = "A.md" ∧ n.color = tg.color :=
  c7_most_populous_tag corpusC7 ["A.md"] tagIdxC7 defaultSettings "A.md"
    (by decide) (by decide) (by decide)

end GigatagGraph
